import Mathlib

/-!
# MissionMonitor: shallow embedding of the storage / sheets core

This file embeds, in Lean, the pure content of the MissionMonitor bot's
persistence store (`storage.ts`), its deadline sweep query
(`deadline-checker.ts`) and its spreadsheet sync gateway (`sheets.ts`),
and proves (or refutes) the specification claims about them.

Modelling conventions:
- ISO-8601 timestamps are modelled as `Nat` (epoch instants); the source
  only ever compares them (`new Date(m.deadline) < now`) or stores them.
- Strings stay `String`; character-level string processing
  (`sanitizeTitle`) is done on `String.data` (`List Char`).
- The JS arrays backing the two JSON documents become Lean lists; the
  load / mutate / save cycle of each storage operation becomes a pure
  function `Store → Store` (the file round-trip is the identity on the
  document, per the spec's lossless round-trip requirement).
- Remote spreadsheet state is a list of named sheets; each remote call
  of the gateway can fail (the JS `throw`), which we model by a record
  of success flags `RemoteEnv` threaded through the gateway functions.
-/

namespace MissionMonitor

/-- Mission status: `'active' | 'closed' | 'exported'` in `storage.ts`. -/
inductive Status where
  | active
  | closed
  | exported
  deriving DecidableEq, Repr

/-- `StoredVote` / `Vote` of `storage.ts`. -/
structure Vote where
  judgeId : String
  score : Int
  timestamp : Nat
  deriving DecidableEq, Repr

/-- `StoredSubmission` / `Submission` of `storage.ts` (the variant with a
`source` field, which is the one `sheets.ts` imports; `source` is a plain
string, `""` standing for an absent value so that the gateway's
`s.source || 'discord'` default is expressible). -/
structure Submission where
  id : String
  messageId : String
  channelId : String
  threadId : String
  missionId : String
  userId : String
  userTag : String
  content : String
  urls : List String
  votes : List Vote
  submittedAt : Nat
  exported : Bool
  source : String
  deriving DecidableEq, Repr

/-- `StoredMission` / `Mission` of `storage.ts`. -/
structure Mission where
  id : String
  title : String
  threadId : String
  deadline : Nat
  status : Status
  createdAt : Nat
  exportedAt : Option Nat
  deriving DecidableEq, Repr

/-- The two persisted JSON documents (`missions.json`, `submissions.json`). -/
structure Store where
  missions : List Mission
  submissions : List Submission
  deriving DecidableEq, Repr

/-! ## Storage operations (`storage.ts`) -/

/-- `registerMission(threadId, title, deadline)`: returns the existing
mission when the `threadId` is already registered, otherwise pushes a new
`active` mission whose id is `mission-` followed by the current time. -/
def registerMission (store : Store) (threadId title : String) (deadline : Nat)
    (now : Nat) : Mission × Store :=
  match store.missions.find? (fun m => m.threadId = threadId) with
  | some existing => (existing, store)
  | none =>
      let mission : Mission :=
        { id := "mission-" ++ toString now
          title := title
          threadId := threadId
          deadline := deadline
          status := Status.active
          createdAt := now
          exportedAt := none }
      (mission, { store with missions := store.missions ++ [mission] })

/-- `getMissionByThread(threadId)`. -/
def getMissionByThread (store : Store) (threadId : String) : Option Mission :=
  store.missions.find? (fun m => m.threadId = threadId)

/-- `getMissionById(missionId)`. -/
def getMissionById (store : Store) (missionId : String) : Option Mission :=
  store.missions.find? (fun m => m.id = missionId)

/-- `getActiveMissions()`. -/
def getActiveMissions (store : Store) : List Mission :=
  store.missions.filter (fun m => m.status = Status.active)

/-- `getMissionsPastDeadline()`: the sweep query. The source filters
`m.status === 'active' && new Date(m.deadline) < now`. -/
def getMissionsPastDeadline (store : Store) (now : Nat) : List Mission :=
  store.missions.filter (fun m => m.status = Status.active ∧ m.deadline < now)

/-- Mutate the first mission of the list with the given id (JS `find`
returns a reference; the source mutates that single record). -/
def updateFirstMission (f : Mission → Mission) (mid : String) :
    List Mission → List Mission
  | [] => []
  | m :: rest =>
      if m.id = mid then f m :: rest
      else m :: updateFirstMission f mid rest

/-- `markMissionClosed(missionId)`: unconditionally sets `status = 'closed'`
on the found mission; no-op when the id is absent. -/
def markMissionClosed (store : Store) (mid : String) : Store :=
  { store with
    missions := updateFirstMission (fun m => { m with status := Status.closed }) mid store.missions }

/-- `markMissionExported(missionId)`: sets `status = 'exported'` and stamps
`exportedAt`; no-op when the id is absent. -/
def markMissionExported (store : Store) (mid : String) (now : Nat) : Store :=
  { store with
    missions := updateFirstMission
      (fun m => { m with status := Status.exported, exportedAt := some now }) mid store.missions }

/-- `updateMissionDeadline(missionId, newDeadline)`: permitted only while
`status === 'active'`; returns whether the update happened. -/
def updateMissionDeadline (store : Store) (mid : String) (newDeadline : Nat) :
    Bool × Store :=
  match store.missions.find? (fun m => m.id = mid) with
  | some m =>
      if m.status = Status.active then
        (true, { store with
          missions := updateFirstMission (fun m => { m with deadline := newDeadline }) mid store.missions })
      else (false, store)
  | none => (false, store)

/-- `createSubmission(...)`: pushes a fresh submission with empty votes and
`exported = false`. The generated id (`sub-` time + random suffix) is passed
in as `freshId`. -/
def createSubmission (store : Store) (freshId messageId channelId threadId missionId
    userId userTag content : String) (urls : List String) (source : String)
    (now : Nat) : Submission × Store :=
  let s : Submission :=
    { id := freshId
      messageId := messageId
      channelId := channelId
      threadId := threadId
      missionId := missionId
      userId := userId
      userTag := userTag
      content := content
      urls := urls
      votes := []
      submittedAt := now
      exported := false
      source := source }
  (s, { store with submissions := store.submissions ++ [s] })

/-- `getSubmissionByMessage(messageId)`. -/
def getSubmissionByMessage (store : Store) (messageId : String) : Option Submission :=
  store.submissions.find? (fun s => s.messageId = messageId)

/-- `getSubmissionsByMission(missionId)`. -/
def getSubmissionsByMission (store : Store) (missionId : String) : List Submission :=
  store.submissions.filter (fun s => s.missionId = missionId)

/-- The vote upsert at the heart of `recordVote`:
`findIndex(v => v.judgeId === judgeId)` followed by in-place replacement
when found, `push` otherwise. -/
def upsertVote (v : Vote) : List Vote → List Vote
  | [] => [v]
  | w :: rest =>
      if w.judgeId = v.judgeId then v :: rest
      else w :: upsertVote v rest

/-- Mutate the first submission of the list with the given id. -/
def updateFirstSubmission (f : Submission → Submission) (sid : String) :
    List Submission → List Submission
  | [] => []
  | s :: rest =>
      if s.id = sid then f s :: rest
      else s :: updateFirstSubmission f sid rest

/-- `recordVote(submissionId, judgeId, score)`: upsert keyed by `judgeId`
into the found submission's vote list; logged no-op when absent. -/
def recordVote (store : Store) (submissionId judgeId : String) (score : Int)
    (now : Nat) : Store :=
  match store.submissions.find? (fun s => s.id = submissionId) with
  | none => store
  | some _ =>
      { store with
        submissions := updateFirstSubmission
          (fun s => { s with votes := upsertVote ⟨judgeId, score, now⟩ s.votes })
          submissionId store.submissions }

/-- `removeVote(submissionId, judgeId)`: filters the judge's votes out of the
found submission; no-op when absent. -/
def removeVote (store : Store) (submissionId judgeId : String) : Store :=
  match store.submissions.find? (fun s => s.id = submissionId) with
  | none => store
  | some _ =>
      { store with
        submissions := updateFirstSubmission
          (fun s => { s with votes := s.votes.filter (fun v => ¬ v.judgeId = judgeId) })
          submissionId store.submissions }

/-- `markSubmissionsExported(missionId)`: bulk `forEach`, flipping
`exported = true` on every submission of the mission. -/
def markSubmissionsExported (store : Store) (missionId : String) : Store :=
  { store with
    submissions := store.submissions.map
      (fun s => if s.missionId = missionId then { s with exported := true } else s) }

/-! ## Sheets gateway (`sheets.ts`)

The remote spreadsheet is a list of named sheets; every remote API call
(`loadInfo`, `addSheet`, `clear`, `setHeaderRow`, `addRow(s)`, `getRows`,
`row.save`) can throw in the source, which we model by a record of
success flags. A thrown call is caught at the gateway boundary and
converted into a `false` / `success: false` result. -/

/-- One sheet tab: a header row plus data rows (cells are strings). -/
structure Sheet where
  header : List String
  rows : List (List String)
  deriving DecidableEq, Repr

/-- The spreadsheet document: sheets keyed by (unique) tab title. -/
def SheetDb : Type := List (String × Sheet)

instance : DecidableEq SheetDb := by
  unfold SheetDb
  infer_instance

/-- `doc.sheetsByTitle[title]`. -/
def getSheet (db : SheetDb) (title : String) : Option Sheet :=
  (db.find? (fun p => p.1 = title)).map Prod.snd

/-- Replace the sheet stored under `title` (or register it when absent,
as `doc.addSheet` does). Tab titles are unique in a spreadsheet. -/
def setSheet (db : SheetDb) (title : String) (sh : Sheet) : SheetDb :=
  match db with
  | [] => [(title, sh)]
  | p :: rest =>
      if p.1 = title then (title, sh) :: rest
      else p :: setSheet rest title sh

/-- Success flags for the remote spreadsheet calls a gateway operation
performs; `false` means that kind of call throws. -/
structure RemoteEnv where
  getSpreadsheetOk : Bool
  readOk : Bool
  addSheetOk : Bool
  clearOk : Bool
  setHeaderOk : Bool
  addRowOk : Bool
  saveOk : Bool
  deriving DecidableEq, Repr

/-- The characters matched by `sanitizeTitle`'s regex `/[*?:/\\[\]']/g`. -/
def isSheetSpecialChar (c : Char) : Bool :=
  c == '*' || c == '?' || c == ':' || c == '/' || c == '\\' ||
    c == '[' || c == ']' || c == '\''

/-- JS `String.prototype.trim`: drop whitespace from both ends. -/
def trimChars (cs : List Char) : List Char :=
  ((cs.dropWhile Char.isWhitespace).reverse.dropWhile Char.isWhitespace).reverse

/-- `sanitizeTitle` on the character list: replace each special character
by `'-'`, take the first 100 characters, then trim. -/
def sanitizeChars (cs : List Char) : List Char :=
  trimChars ((cs.map (fun c => if isSheetSpecialChar c then '-' else c)).take 100)

/-- `sanitizeTitle(title)` of `sheets.ts`:
`title.replace(/[*?:/\\[\]']/g, '-').slice(0, 100).trim()`. -/
def sanitizeTitle (title : String) : String :=
  String.mk (sanitizeChars title.data)

/-- `SHEET_HEADERS` of `sheets.ts`. -/
def SHEET_HEADERS : List String :=
  ["Submission ID", "Source", "User ID", "User Tag", "URL", "Content",
   "Submitted At", "Vote Count", "Average Score", "Votes (JSON)"]

/-- `r.get(h)` of the spreadsheet row API: the cell under header `h`
(first occurrence), with `|| ''` turning a missing cell into `""`. -/
def getCell (header row : List String) (name : String) : String :=
  match header.indexOf? name with
  | some i => row.getD i ""
  | none => ""

/-- `row.set(name, value)`: overwrite the cell under header `name`. -/
def setCell (header row : List String) (name value : String) : List String :=
  match header.indexOf? name with
  | some i => row.set i value
  | none => row

/-- The migrated header row of `ensureMissionSheet`:
`[oldHeaders[0], 'Source', ...oldHeaders.slice(1)]`. -/
def migrateHeaders (old : List String) : List String :=
  old.headD "" :: "Source" :: old.tail

/-- `oldHeaders.map(h => r.get(h) || '')` for one row. -/
def rowValues (header row : List String) : List String :=
  header.map (fun h => getCell header row h)

/-- The migrated data row of `ensureMissionSheet`:
`[data[0], 'discord', ...data.slice(1)]`. -/
def migrateRowData (data : List String) : List String :=
  data.headD "" :: "discord" :: data.tail

/-- `ensureMissionSheet(mission)`: create the mission's sheet when absent
(with the standard header), and migrate a pre-existing sheet whose header
lacks the `Source` column. On success returns the new spreadsheet state
and the tab title; on a thrown remote call returns the state reached so
far as the error value. -/
def ensureMissionSheet (env : RemoteEnv) (db : SheetDb) (mission : Mission) :
    Except SheetDb (SheetDb × String) :=
  if ¬ env.getSpreadsheetOk then Except.error db
  else
    let title := sanitizeTitle mission.title
    match getSheet db title with
    | none =>
        if ¬ env.addSheetOk then Except.error db
        else
          let db1 := setSheet db title ⟨[], []⟩
          if ¬ env.setHeaderOk then Except.error db1
          else Except.ok (setSheet db1 title ⟨SHEET_HEADERS, []⟩, title)
    | some sheet =>
        if ¬ env.readOk then Except.error db
        else if "Source" ∈ sheet.header then Except.ok (db, title)
        else
          let old := sheet.header
          let rowData := sheet.rows.map (rowValues old)
          let newHeaders := migrateHeaders old
          if ¬ env.clearOk then Except.error db
          else
            let db1 := setSheet db title ⟨[], []⟩
            if ¬ env.setHeaderOk then Except.error db1
            else
              let db2 := setSheet db1 title ⟨newHeaders, []⟩
              if ¬ env.addRowOk ∧ rowData ≠ [] then Except.error db2
              else Except.ok (setSheet db2 title ⟨newHeaders, rowData.map migrateRowData⟩, title)

/-- `content.slice(0, 500)`. -/
def truncateContent (s : String) : String :=
  String.mk (s.data.take 500)

/-- `submission.source || 'discord'`. -/
def sourceTag (s : Submission) : String :=
  if s.source = "" then "discord" else s.source

/-- The row appended for a fresh submission in `appendSubmissionToSheet`
(placeholder vote aggregates: count 0, average `N/A`, empty vote list). -/
def appendRowCells (s : Submission) : List String :=
  [s.id, sourceTag s, s.userId, s.userTag, s.urls.headD "",
   truncateContent s.content, toString s.submittedAt, "0", "N/A", "[]"]

/-- `appendSubmissionToSheet(mission, submission)`: no-op returning `false`
when the mission is not `active`; otherwise ensure the sheet and append one
row, returning `false` on any thrown remote call. -/
def appendSubmissionToSheet (env : RemoteEnv) (db : SheetDb)
    (mission : Mission) (submission : Submission) : Bool × SheetDb :=
  if ¬ (mission.status = Status.active) then (false, db)
  else
    match ensureMissionSheet env db mission with
    | Except.error db1 => (false, db1)
    | Except.ok (db1, title) =>
        if ¬ env.addRowOk then (false, db1)
        else
          match getSheet db1 title with
          | some sh =>
              (true, setSheet db1 title ⟨sh.header, sh.rows ++ [appendRowCells submission]⟩)
          | none => (false, db1)

/-! ### Average-score formatting

Both `updateSubmissionVotes` (lines 203-206) and `exportMissionToSheets`
(lines 279-282) compute
`votes.reduce((sum, v) => sum + v.score, 0) / voteCount).toFixed(2)` when
there is at least one vote and render `'N/A'` otherwise. Scores are the
integers 1-5, so the mean is a nonnegative rational; JS `toFixed(2)` on a
nonnegative number picks the integer `n` minimising `|n / 100 - x|`,
preferring the larger `n` on a tie, i.e. `n = ⌊100 x + 1/2⌋`. -/

/-- Two-digit zero-padded rendering of a value in `[0, 99]`. -/
def pad2 (n : Int) : String :=
  if n < 10 then "0" ++ toString n else toString n

/-- `(num / den).toFixed(2)` for the exact rational `num / den` with
`den > 0`: the rounded integer is `⌊(num / den) * 100 + 1/2⌋`, which
equals `(200 * num + den)` floor-divided by `2 * den`. -/
def toFixed2 (num : Int) (den : Nat) : String :=
  let n : Int := Int.fdiv (200 * num + den) (2 * den)
  toString (n / 100) ++ "." ++ pad2 (n % 100)

/-- The shared average-score cell: mean of the scores to two decimal
places, `"N/A"` when there are no votes. -/
def avgScoreString (scores : List Int) : String :=
  if scores.length > 0 then
    toFixed2 scores.sum scores.length
  else "N/A"

/-- The vote pairs `{judgeId, score}` passed to `updateSubmissionVotes`. -/
structure JudgeScore where
  judgeId : String
  score : Int
  deriving DecidableEq, Repr

/-- `JSON.stringify` of one `{judgeId, score}` object. -/
def judgeScoreJson (v : JudgeScore) : String :=
  "\x7b\"judgeId\":\"" ++ v.judgeId ++ "\",\"score\":" ++ toString v.score ++ "\x7d"

/-- `JSON.stringify(votes)`. -/
def votesJson (votes : List JudgeScore) : String :=
  "[" ++ String.intercalate "," (votes.map judgeScoreJson) ++ "]"

/-- The three cell values written by `updateSubmissionVotes`
(`Vote Count`, `Average Score`, `Votes (JSON)`). -/
def voteCellValues (votes : List JudgeScore) : String × String × String :=
  (toString votes.length, avgScoreString (votes.map JudgeScore.score), votesJson votes)

/-- `updateSubmissionVotes(missionId, submissionId, votes)`: locate the
submission's row by its `Submission ID` cell and rewrite the vote count,
average score and serialized vote list; no-op returning `false` when the
mission is missing or not `active`, the sheet or row is missing, or a
remote call throws. -/
def updateSubmissionVotes (env : RemoteEnv) (store : Store) (db : SheetDb)
    (missionId submissionId : String) (votes : List JudgeScore) : Bool × SheetDb :=
  match getMissionById store missionId with
  | none => (false, db)
  | some mission =>
      if ¬ (mission.status = Status.active) then (false, db)
      else if ¬ env.getSpreadsheetOk then (false, db)
      else
        match getSheet db (sanitizeTitle mission.title) with
        | none => (false, db)
        | some sheet =>
            if ¬ env.readOk then (false, db)
            else
              match sheet.rows.findIdx? (fun r => getCell sheet.header r "Submission ID" = submissionId) with
              | none => (false, db)
              | some i =>
                  let cells := voteCellValues votes
                  let row0 := sheet.rows.getD i []
                  let row1 := setCell sheet.header row0 "Vote Count" cells.1
                  let row2 := setCell sheet.header row1 "Average Score" cells.2.1
                  let row3 := setCell sheet.header row2 "Votes (JSON)" cells.2.2
                  if ¬ env.saveOk then (false, db)
                  else
                    (true, setSheet db (sanitizeTitle mission.title)
                      ⟨sheet.header, sheet.rows.set i row3⟩)

/-! ### Batch export -/

/-- Result of `exportMissionToSheets` (the error message string of the
source's failure result carries no further state and is omitted). -/
structure ExportResult where
  success : Bool
  rowCount : Nat
  deriving DecidableEq, Repr

/-- JS `Set` insertion-order deduplication (`Array.from(new Set(...))`). -/
def dedupFirst (l : List String) : List String :=
  l.foldl (fun acc x => if x ∈ acc then acc else acc ++ [x]) []

/-- Insertion into a `≤`-sorted list of strings. -/
def insertSorted (x : String) : List String → List String
  | [] => [x]
  | y :: ys => if x ≤ y then x :: y :: ys else y :: insertSorted x ys

/-- JS `Array.prototype.sort()` on strings (lexicographic). -/
def sortStrings (l : List String) : List String :=
  l.foldr insertSorted []

/-- `id.slice(-6)`: the last six characters. -/
def lastChars (n : Nat) (s : String) : String :=
  String.mk (s.data.drop (s.data.length - n))

/-- The distinct judge ids across a mission's submissions, sorted
(`Array.from(judgeIds).sort()`). -/
def judgeIdArrayOf (submissions : List Submission) : List String :=
  sortStrings (dedupFirst ((submissions.map (fun s => s.votes.map Vote.judgeId)).flatten))

/-- The batch-export header row: nine fixed columns plus one
`Judge_<last-6-of-id>` column per distinct judge. -/
def exportHeaders (judgeIdArray : List String) : List String :=
  ["Submission ID", "Source", "User ID", "User Tag", "URL", "Content",
   "Submitted At", "Vote Count", "Average Score"] ++
    judgeIdArray.map (fun id => "Judge_" ++ lastChars 6 id)

/-- One batch-export data row for a submission. -/
def exportRowCells (judgeIdArray : List String) (s : Submission) : List String :=
  let judgeScores := judgeIdArray.map (fun judgeId =>
    match s.votes.find? (fun v => v.judgeId = judgeId) with
    | some v => toString v.score
    | none => "")
  [s.id, sourceTag s, s.userId, s.userTag, s.urls.headD "",
   truncateContent s.content, toString s.submittedAt,
   toString s.votes.length, avgScoreString (s.votes.map Vote.score)] ++ judgeScores

/-- `exportMissionToSheets(mission)`: recompute the full row set, clear and
rewrite the sheet, then mark the mission and its submissions exported; a
mission with zero submissions is marked exported immediately with
`rowCount: 0` and no sheet access. Any thrown remote call yields
`success: false` with the store untouched. -/
def exportMissionToSheets (env : RemoteEnv) (store : Store) (db : SheetDb)
    (mission : Mission) (now : Nat) : ExportResult × Store × SheetDb :=
  if ¬ env.getSpreadsheetOk then (⟨false, 0⟩, store, db)
  else
    let submissions := getSubmissionsByMission store mission.id
    if submissions.length = 0 then
      (⟨true, 0⟩, markMissionExported store mission.id now, db)
    else
      let judgeIdArray := judgeIdArrayOf submissions
      let title := sanitizeTitle mission.title
      let step1 : Option SheetDb :=
        match getSheet db title with
        | none => if env.addSheetOk then some (setSheet db title ⟨[], []⟩) else none
        | some _ => if env.clearOk then some (setSheet db title ⟨[], []⟩) else none
      match step1 with
      | none => (⟨false, 0⟩, store, db)
      | some db1 =>
          let headers := exportHeaders judgeIdArray
          let rows := submissions.map (exportRowCells judgeIdArray)
          if ¬ env.setHeaderOk then (⟨false, 0⟩, store, db1)
          else
            let db2 := setSheet db1 title ⟨headers, []⟩
            if ¬ env.addRowOk then (⟨false, 0⟩, store, db2)
            else
              let db3 := setSheet db2 title ⟨headers, rows⟩
              let store1 := markMissionExported store mission.id now
              let store2 := markSubmissionsExported store1 mission.id
              (⟨true, rows.length⟩, store2, db3)

/-! ## Derived predicates and fixtures used by the verification -/

/-- Rank of a status along the lifecycle `active → closed → exported`. -/
def statusRank : Status → Nat
  | Status.active => 0
  | Status.closed => 1
  | Status.exported => 2

/-- The store invariant "exactly one Mission per distinct threadId". -/
def uniqueThreadIds (store : Store) : Prop :=
  (store.missions.map Mission.threadId).Nodup

/-- The vote-ledger invariant for one submission: at most one vote per
judge. -/
def judgesNodup (s : Submission) : Prop :=
  (s.votes.map Vote.judgeId).Nodup

/-- The vote-ledger invariant for the whole store. -/
def voteInvariant (store : Store) : Prop :=
  ∀ s ∈ store.submissions, judgesNodup s

/-- Position, in the migrated sheet, of the old column `j` after `Source`
is inserted immediately after the first column. -/
def newPos : Nat → Nat
  | 0 => 0
  | j + 1 => j + 2

/-- The claim C8 wording of sanitization (spec side, for comparison with
the source's `sanitizeTitle`): delete every special character, then
truncate to at most 100 characters. -/
def specStripSanitize (cs : List Char) : List Char :=
  (cs.filter (fun c => ¬ isSheetSpecialChar c)).take 100

/-- A closed mission whose deadline (5) has passed and which is not yet
exported — the state a mission is left in after a failed export. -/
def closedPastMission : Mission :=
  { id := "mission-1", title := "Mission One", threadId := "thread-1",
    deadline := 5, status := Status.closed, createdAt := 0, exportedAt := none }

/-- An exported mission. -/
def exportedMission : Mission :=
  { id := "mission-2", title := "Mission Two", threadId := "thread-2",
    deadline := 5, status := Status.exported, createdAt := 0, exportedAt := some 9 }

/-- An active mission. -/
def activeMission : Mission :=
  { id := "mission-3", title := "Mission Three", threadId := "thread-3",
    deadline := 5, status := Status.active, createdAt := 0, exportedAt := none }

/-- A submission of `activeMission` with no votes. -/
def sampleSubmission : Submission :=
  { id := "sub-1", messageId := "msg-1", channelId := "chan-1",
    threadId := "thread-3", missionId := "mission-3", userId := "user-1",
    userTag := "user#1", content := "my entry", urls := ["https://x.test/1"],
    votes := [], submittedAt := 3, exported := false, source := "discord" }

/-- A remote environment in which every spreadsheet call succeeds. -/
def allOkEnv : RemoteEnv :=
  { getSpreadsheetOk := true, readOk := true, addSheetOk := true,
    clearOk := true, setHeaderOk := true, addRowOk := true, saveOk := true }

/-! ## Helper lemmas -/

theorem find?_updateFirstMission (f : Mission → Mission) (mid : String)
    (hf : ∀ m, (f m).id = m.id) (l : List Mission) :
    (updateFirstMission f mid l).find? (fun m => m.id = mid)
      = (l.find? (fun m => m.id = mid)).map f := by
  induction l with
  | nil => rfl
  | cons m rest ih =>
      by_cases h : m.id = mid
      · simp [updateFirstMission, h, List.find?_cons, hf]
      · simp [updateFirstMission, h, List.find?_cons, ih]

theorem forall₂_updateFirstMission (f : Mission → Mission) (mid : String)
    (l : List Mission) :
    List.Forall₂ (fun m m' => m' = m ∨ (m.id = mid ∧ m' = f m))
      l (updateFirstMission f mid l) := by
  induction l with
  | nil => exact List.Forall₂.nil
  | cons m rest ih =>
      by_cases h : m.id = mid
      · simp only [updateFirstMission, if_pos h]
        exact List.Forall₂.cons (Or.inr ⟨h, rfl⟩) (List.forall₂_same.mpr fun x _ => Or.inl rfl)
      · simp only [updateFirstMission, if_neg h]
        exact List.Forall₂.cons (Or.inl rfl) ih

theorem submissions_markMissionClosed (store : Store) (mid : String) :
    (markMissionClosed store mid).submissions = store.submissions := rfl

theorem submissions_markMissionExported (store : Store) (mid : String) (now : Nat) :
    (markMissionExported store mid now).submissions = store.submissions := rfl

theorem missions_markSubmissionsExported (store : Store) (mid : String) :
    (markSubmissionsExported store mid).missions = store.missions := rfl

/-! ## C1 — the sweep's export-eligibility query -/

/-- C1: the claim says `getMissionsPastDeadline` implements "past deadline
AND not exported", so a `closed`, unexported mission past its deadline is
still returned and export is retried. The code filters
`m.status === 'active'`, so the closed mission is dropped: at `now = 10`
the query on a store holding exactly `closedPastMission` (status `closed`,
deadline 5, not exported) returns the empty list, contradicting the claim,
the spec, and the function's own doc comment ("Get missions past their
deadline that haven't been exported"). -/
theorem getMissionsPastDeadline_drops_closed_missions :
    getMissionsPastDeadline ⟨[closedPastMission], []⟩ 10 = [] ∧
      closedPastMission.status = Status.closed ∧
      closedPastMission.deadline < 10 ∧
      closedPastMission.exportedAt = none := by
  refine ⟨rfl, rfl, by decide, rfl⟩

/-! ## C6 — append gate on non-active missions -/

/-- C6: for every mission whose status is not `active`, the gateway's
append operation returns `false` and leaves the remote spreadsheet
untouched (no sheet creation, no header write, no row append), whatever
the remote environment does. -/
theorem appendSubmissionToSheet_rejects_inactive (env : RemoteEnv)
    (db : SheetDb) (mission : Mission) (submission : Submission)
    (h : mission.status ≠ Status.active) :
    appendSubmissionToSheet env db mission submission = (false, db) := by
  simp [appendSubmissionToSheet, h]

/-- Witness for C6 at a concrete closed mission: the append on an empty
spreadsheet fails and the spreadsheet stays empty. -/
theorem appendSubmissionToSheet_rejects_inactive_witness :
    closedPastMission.status ≠ Status.active ∧
      appendSubmissionToSheet allOkEnv [] closedPastMission sampleSubmission
        = (false, []) :=
  ⟨by decide,
   appendSubmissionToSheet_rejects_inactive allOkEnv [] closedPastMission
     sampleSubmission (by decide)⟩

/-! ## C8 — sheet-name sanitization -/

/-- C8 counterexample: the claim says the special characters are
*stripped*; the source replaces them with `'-'`. On the title `"a*b"` the
source produces `"a-b"` while stripping would produce `"ab"`. -/
theorem sanitizeTitle_replaces_instead_of_stripping :
    sanitizeTitle "a*b" = "a-b" ∧
      String.mk (specStripSanitize ("a*b").data) = "ab" ∧
      ("a-b" : String) ≠ "ab" := by
  refine ⟨rfl, rfl, by decide⟩

theorem trimChars_length_le (cs : List Char) :
    (trimChars cs).length ≤ cs.length := by
  unfold trimChars
  calc ((cs.dropWhile Char.isWhitespace).reverse.dropWhile Char.isWhitespace).reverse.length
      = ((cs.dropWhile Char.isWhitespace).reverse.dropWhile Char.isWhitespace).length := by
        simp
    _ ≤ (cs.dropWhile Char.isWhitespace).reverse.length :=
        (List.dropWhile_sublist Char.isWhitespace).length_le
    _ = (cs.dropWhile Char.isWhitespace).length := by simp
    _ ≤ cs.length := (List.dropWhile_sublist Char.isWhitespace).length_le

theorem mem_trimChars (c : Char) (cs : List Char) (h : c ∈ trimChars cs) :
    c ∈ cs := by
  unfold trimChars at h
  rw [List.mem_reverse] at h
  have h1 := (List.dropWhile_sublist Char.isWhitespace).mem h
  rw [List.mem_reverse] at h1
  exact (List.dropWhile_sublist Char.isWhitespace).mem h1

/-- C8 amended: `sanitizeTitle` replaces each occurrence of
`* ? : / \ [ ] '` with `'-'` (so the result contains no special character,
and every result character is either a character of the title or `'-'`),
truncates to the first 100 characters and trims whitespace, so the result
has at most 100 characters. -/
theorem sanitizeTitle_no_specials_and_bounded (title : String) :
    (sanitizeTitle title).data.length ≤ 100 ∧
      (∀ c ∈ (sanitizeTitle title).data, isSheetSpecialChar c = false) ∧
      (∀ c ∈ (sanitizeTitle title).data, c ∈ title.data ∨ c = '-') := by
  refine ⟨?_, ?_, ?_⟩
  · calc (sanitizeTitle title).data.length
        ≤ ((title.data.map (fun c => if isSheetSpecialChar c then '-' else c)).take 100).length :=
          trimChars_length_le _
      _ ≤ 100 := by simp
  · intro c hc
    have hc1 := mem_trimChars c _ hc
    have hc2 := List.mem_of_mem_take hc1
    rcases List.mem_map.mp hc2 with ⟨a, _, ha⟩
    by_cases hs : isSheetSpecialChar a
    · simp [hs] at ha
      subst ha
      rfl
    · simp [hs] at ha
      subst ha
      exact Bool.of_not_eq_true hs
  · intro c hc
    have hc1 := mem_trimChars c _ hc
    have hc2 := List.mem_of_mem_take hc1
    rcases List.mem_map.mp hc2 with ⟨a, hmem, ha⟩
    by_cases hs : isSheetSpecialChar a
    · simp [hs] at ha
      exact Or.inr ha.symm
    · simp [hs] at ha
      subst ha
      exact Or.inl hmem

/-! ## C10 — frame property of markSubmissionsExported -/

/-- C10: `markSubmissionsExported` does not touch the missions collection,
leaves every submission of a different mission entirely unchanged, and
changes each submission of the given mission only in its `exported`
field. -/
theorem markSubmissionsExported_frame (store : Store) (mid : String) :
    (markSubmissionsExported store mid).missions = store.missions ∧
      List.Forall₂
        (fun s s' =>
          (s.missionId ≠ mid → s' = s) ∧
          (s.missionId = mid → s' = { s with exported := true }))
        store.submissions (markSubmissionsExported store mid).submissions := by
  refine ⟨rfl, ?_⟩
  simp only [markSubmissionsExported]
  induction store.submissions with
  | nil => exact List.Forall₂.nil
  | cons s rest ih =>
      refine List.Forall₂.cons ?_ ih
      by_cases h : s.missionId = mid
      · exact ⟨fun hne => absurd h hne, fun _ => by simp [h]⟩
      · exact ⟨fun _ => by simp [h], fun heq => absurd heq h⟩

/-! ## C5 — registerMission idempotence -/

/-- C5: re-registering an already-registered `threadId` returns the
existing record unchanged (hence the same mission id both times) and does
not modify the store; and registration preserves the one-mission-per-
threadId invariant. -/
theorem registerMission_idempotent (store : Store) (t title1 title2 : String)
    (d1 d2 now1 now2 : Nat) (h : uniqueThreadIds store) :
    (registerMission (registerMission store t title1 d1 now1).2 t title2 d2 now2).1
        = (registerMission store t title1 d1 now1).1 ∧
      (registerMission (registerMission store t title1 d1 now1).2 t title2 d2 now2).2
        = (registerMission store t title1 d1 now1).2 ∧
      uniqueThreadIds (registerMission store t title1 d1 now1).2 := by
  cases hfind : store.missions.find? (fun m => m.threadId = t) with
  | some existing =>
      refine ⟨?_, ?_, ?_⟩ <;> simp [registerMission, hfind, h]
  | none =>
      have hnone : ∀ m ∈ store.missions, m.threadId ≠ t := by
        intro m hm
        have := List.find?_eq_none.mp hfind m hm
        simpa using this
      constructor
      · simp [registerMission, hfind, List.find?_append]
      constructor
      · simp [registerMission, hfind, List.find?_append]
      · simp only [registerMission, hfind]
        unfold uniqueThreadIds
        simp only [List.map_append, List.map_cons, List.map_nil]
        rw [List.nodup_append]
        refine ⟨h, List.nodup_singleton _, ?_⟩
        intro x hx hx1
        simp only [List.mem_singleton] at hx1
        rcases List.mem_map.mp hx with ⟨m, hm, hmt⟩
        exact hnone m hm (hmt.trans hx1)

/-- Witness for C5: registering thread `"t"` twice on the empty store. -/
theorem registerMission_idempotent_witness :
    uniqueThreadIds ⟨[], []⟩ ∧
      ((registerMission (registerMission ⟨[], []⟩ "t" "A" 5 1).2 "t" "B" 6 2).1
          = (registerMission ⟨[], []⟩ "t" "A" 5 1).1 ∧
        (registerMission (registerMission ⟨[], []⟩ "t" "A" 5 1).2 "t" "B" 6 2).2
          = (registerMission ⟨[], []⟩ "t" "A" 5 1).2 ∧
        uniqueThreadIds (registerMission ⟨[], []⟩ "t" "A" 5 1).2) :=
  ⟨by simp [uniqueThreadIds],
   registerMission_idempotent ⟨[], []⟩ "t" "A" "B" 5 6 1 2 (by simp [uniqueThreadIds])⟩

/-! ## C2 — status monotonicity -/

/-- C2 counterexample: `markMissionClosed` applied to an `exported`
mission moves its status back to `closed` — the status of `exportedMission`
goes from rank 2 down to rank 1, so status is not monotonic under every
operation applied in any status. -/
theorem markMissionClosed_reverses_exported_mission :
    exportedMission.status = Status.exported ∧
      (markMissionClosed ⟨[exportedMission], []⟩ "mission-2").missions.map Mission.status
        = [Status.closed] ∧
      statusRank Status.closed < statusRank Status.exported := by
  refine ⟨rfl, rfl, by decide⟩

/-- C2 amended: `markMissionExported` never lowers any mission's status
rank, and `markMissionClosed` never lowers any mission's status rank
provided no mission carrying the target id is already `exported` — which
is how the sweeper calls it, on missions returned by the active-only
query. (Unconditionally, `markMissionClosed` resets an `exported` mission
to `closed`, refuting the original claim.) -/
theorem markMission_status_monotone (store : Store) (mid : String) (now : Nat)
    (h : ∀ m ∈ store.missions, m.id = mid → m.status ≠ Status.exported) :
    List.Forall₂ (fun m m' => statusRank m.status ≤ statusRank m'.status)
        store.missions (markMissionExported store mid now).missions ∧
      List.Forall₂ (fun m m' => statusRank m.status ≤ statusRank m'.status)
        store.missions (markMissionClosed store mid).missions := by
  constructor
  · refine (forall₂_updateFirstMission
      (fun m => { m with status := Status.exported, exportedAt := some now }) mid
      store.missions).imp ?_
    intro m m' hmm
    rcases hmm with rfl | ⟨_, rfl⟩
    · exact le_refl _
    · cases m.status <;> simp [statusRank]
  · have hforall := forall₂_updateFirstMission
      (fun m => { m with status := Status.closed }) mid store.missions
    refine ((List.forall₂_and_left _ _).mpr ⟨fun m hm => h m hm, hforall⟩).imp ?_
    intro m m' hmm
    rcases hmm with ⟨hne, rfl | ⟨hid, rfl⟩⟩
    · exact le_refl _
    · cases hstat : m.status
      · simp [statusRank]
      · simp [statusRank]
      · exact absurd hstat (hne hid)

/-- Witness for C2 at a store holding one active and one closed mission:
closing and exporting `"mission-1"` never lowers a status rank. -/
theorem markMission_status_monotone_witness :
    (∀ m ∈ (Store.mk [closedPastMission, activeMission] []).missions,
        m.id = "mission-1" → m.status ≠ Status.exported) ∧
      (List.Forall₂ (fun m m' => statusRank m.status ≤ statusRank m'.status)
          (Store.mk [closedPastMission, activeMission] []).missions
          (markMissionExported ⟨[closedPastMission, activeMission], []⟩ "mission-1" 7).missions ∧
        List.Forall₂ (fun m m' => statusRank m.status ≤ statusRank m'.status)
          (Store.mk [closedPastMission, activeMission] []).missions
          (markMissionClosed ⟨[closedPastMission, activeMission], []⟩ "mission-1").missions) :=
  ⟨by decide,
   markMission_status_monotone ⟨[closedPastMission, activeMission], []⟩ "mission-1" 7
     (by decide)⟩

/-! ## C4 — vote upsert, helper lemmas -/

theorem upsertVote_filter (v : Vote) (votes : List Vote)
    (h : (votes.map Vote.judgeId).Nodup) :
    (upsertVote v votes).filter (fun w => w.judgeId = v.judgeId) = [v] := by
  induction votes with
  | nil => simp [upsertVote]
  | cons w rest ih =>
      simp only [List.map_cons, List.nodup_cons] at h
      by_cases hw : w.judgeId = v.judgeId
      · simp only [upsertVote, if_pos hw, List.filter_cons]
        have hnil : rest.filter (fun w' => w'.judgeId = v.judgeId) = [] := by
          rw [List.filter_eq_nil_iff]
          intro a ha
          simp only [decide_eq_true_eq]
          intro hav
          exact h.1 (hw ▸ hav ▸ List.mem_map_of_mem Vote.judgeId ha)
        simp [hnil]
      · simp only [upsertVote, if_neg hw, List.filter_cons]
        have : ¬ (w.judgeId = v.judgeId) := hw
        simp [this, ih h.2]

theorem mem_map_judgeId_upsertVote (v : Vote) (votes : List Vote) (x : String)
    (h : x ∈ (upsertVote v votes).map Vote.judgeId) :
    x = v.judgeId ∨ x ∈ votes.map Vote.judgeId := by
  induction votes with
  | nil =>
      simp only [upsertVote, List.map_cons, List.map_nil, List.mem_singleton] at h
      exact Or.inl h
  | cons w rest ih =>
      by_cases hw : w.judgeId = v.judgeId
      · simp only [upsertVote, if_pos hw, List.map_cons, List.mem_cons] at h
        rcases h with h | h
        · exact Or.inl h
        · exact Or.inr (List.mem_cons_of_mem _ h)
      · simp only [upsertVote, if_neg hw, List.map_cons, List.mem_cons] at h
        rcases h with h | h
        · exact Or.inr (h ▸ List.mem_cons_self _ _)
        · rcases ih h with h1 | h1
          · exact Or.inl h1
          · exact Or.inr (List.mem_cons_of_mem _ h1)

theorem upsertVote_judges_nodup (v : Vote) (votes : List Vote)
    (h : (votes.map Vote.judgeId).Nodup) :
    ((upsertVote v votes).map Vote.judgeId).Nodup := by
  induction votes with
  | nil => simp [upsertVote]
  | cons w rest ih =>
      simp only [List.map_cons, List.nodup_cons] at h
      by_cases hw : w.judgeId = v.judgeId
      · simp only [upsertVote, if_pos hw, List.map_cons, List.nodup_cons]
        exact ⟨hw ▸ h.1, h.2⟩
      · simp only [upsertVote, if_neg hw, List.map_cons, List.nodup_cons]
        refine ⟨fun hmem => ?_, ih h.2⟩
        rcases mem_map_judgeId_upsertVote v rest _ hmem with heq | hmem2
        · exact hw heq
        · exact h.1 hmem2

theorem find?_updateFirstSubmission (f : Submission → Submission) (sid : String)
    (hf : ∀ s, (f s).id = s.id) (l : List Submission) :
    (updateFirstSubmission f sid l).find? (fun s => s.id = sid)
      = (l.find? (fun s => s.id = sid)).map f := by
  induction l with
  | nil => rfl
  | cons s rest ih =>
      by_cases h : s.id = sid
      · simp [updateFirstSubmission, h, List.find?_cons, hf]
      · simp [updateFirstSubmission, h, List.find?_cons, ih]

theorem mem_updateFirstSubmission (f : Submission → Submission) (sid : String)
    (l : List Submission) (s' : Submission)
    (h : s' ∈ updateFirstSubmission f sid l) :
    s' ∈ l ∨ ∃ s ∈ l, s' = f s := by
  induction l with
  | nil => simp only [updateFirstSubmission, List.not_mem_nil] at h
  | cons s rest ih =>
      by_cases hs : s.id = sid
      · simp only [updateFirstSubmission, if_pos hs, List.mem_cons] at h
        rcases h with h | h
        · exact Or.inr ⟨s, List.mem_cons_self _ _, h⟩
        · exact Or.inl (List.mem_cons_of_mem _ h)
      · simp only [updateFirstSubmission, if_neg hs, List.mem_cons] at h
        rcases h with h | h
        · exact Or.inl (h ▸ List.mem_cons_self _ _)
        · rcases ih h with h1 | ⟨s0, hs0, hfs0⟩
          · exact Or.inl (List.mem_cons_of_mem _ h1)
          · exact Or.inr ⟨s0, List.mem_cons_of_mem _ hs0, hfs0⟩

/-- One `recordVote` on a present submission: the submission now carries
exactly one vote of the judge (the fresh one), the invariant is preserved,
and the submission stays present. -/
theorem recordVote_step (store : Store) (sid j : String) (sc : Int) (now : Nat)
    (hinv : voteInvariant store)
    (hpres : (store.submissions.find? (fun s => s.id = sid)).isSome) :
    (∃ s', (recordVote store sid j sc now).submissions.find? (fun s => s.id = sid)
        = some s' ∧ s'.votes.filter (fun w => w.judgeId = j) = [⟨j, sc, now⟩]) ∧
      voteInvariant (recordVote store sid j sc now) ∧
      ((recordVote store sid j sc now).submissions.find? (fun s => s.id = sid)).isSome := by
  rcases Option.isSome_iff_exists.mp hpres with ⟨s0, hs0⟩
  have hupd : recordVote store sid j sc now =
      Store.mk store.missions (updateFirstSubmission
        (fun s => { s with votes := upsertVote ⟨j, sc, now⟩ s.votes }) sid store.submissions) := by
    simp [recordVote, hs0]
  have hfind := find?_updateFirstSubmission
    (fun s => { s with votes := upsertVote ⟨j, sc, now⟩ s.votes }) sid
    (fun s => rfl) store.submissions
  have hmem0 : s0 ∈ store.submissions := List.mem_of_find?_eq_some hs0
  refine ⟨⟨{ s0 with votes := upsertVote ⟨j, sc, now⟩ s0.votes }, ?_, ?_⟩, ?_, ?_⟩
  · rw [hupd]
    simpa [hs0] using hfind
  · exact upsertVote_filter ⟨j, sc, now⟩ s0.votes (hinv s0 hmem0)
  · rw [hupd]
    intro s' hs'
    rcases mem_updateFirstSubmission _ sid store.submissions s' hs' with h | ⟨s1, hs1, rfl⟩
    · exact hinv s' h
    · exact upsertVote_judges_nodup _ _ (hinv s1 hs1)
  · rw [hupd]
    simp only [hfind, hs0, Option.map_some]
    rfl

/-- C4: `recordVote` is an upsert keyed by `(submissionId, judgeId)`.
After one call the submission carries exactly one vote of that judge with
the given score; after a second call with the same judge the single entry
carries the latest score; and the at-most-one-vote-per-judge invariant is
preserved by every store operation that touches submissions (and trivially
by the mission operations, which leave submissions unchanged). -/
theorem recordVote_upsert (store : Store) (sid j : String) (sc1 sc2 : Int)
    (n1 n2 : Nat) (hinv : voteInvariant store)
    (hpres : (store.submissions.find? (fun s => s.id = sid)).isSome) :
    (∃ s', (recordVote store sid j sc1 n1).submissions.find? (fun s => s.id = sid)
        = some s' ∧ s'.votes.filter (fun w => w.judgeId = j) = [⟨j, sc1, n1⟩]) ∧
      (∃ s', (recordVote (recordVote store sid j sc1 n1) sid j sc2 n2).submissions.find?
          (fun s => s.id = sid) = some s' ∧
        s'.votes.filter (fun w => w.judgeId = j) = [⟨j, sc2, n2⟩]) ∧
      voteInvariant (recordVote store sid j sc1 n1) ∧
      (∀ sid2 j2, voteInvariant (removeVote store sid2 j2)) ∧
      (∀ a b c d e f g h urls src now,
        voteInvariant (createSubmission store a b c d e f g h urls src now).2) ∧
      (∀ mid, voteInvariant (markSubmissionsExported store mid)) ∧
      (∀ mid, voteInvariant (markMissionClosed store mid)) ∧
      (∀ mid now, voteInvariant (markMissionExported store mid now)) ∧
      (∀ t ttl d now, voteInvariant (registerMission store t ttl d now).2) ∧
      (∀ mid d, voteInvariant (updateMissionDeadline store mid d).2) := by
  obtain ⟨hone, hinv1, hpres1⟩ := recordVote_step store sid j sc1 n1 hinv hpres
  obtain ⟨htwo, _, _⟩ := recordVote_step (recordVote store sid j sc1 n1) sid j sc2 n2 hinv1 hpres1
  refine ⟨hone, htwo, hinv1, ?_, ?_, ?_, ?_, ?_, ?_, ?_⟩
  · intro sid2 j2 s' hs'
    cases hfind : store.submissions.find? (fun s => s.id = sid2) with
    | none =>
        simp only [removeVote, hfind] at hs'
        exact hinv s' hs'
    | some s0 =>
        simp only [removeVote, hfind] at hs'
        rcases mem_updateFirstSubmission _ sid2 store.submissions s' hs' with h | ⟨s1, hs1, rfl⟩
        · exact hinv s' h
        · exact (hinv s1 hs1).sublist ((List.filter_sublist s1.votes).map Vote.judgeId)
  · intro a b c d e f g h urls src now s' hs'
    simp only [createSubmission, List.mem_append, List.mem_singleton] at hs'
    rcases hs' with h1 | rfl
    · exact hinv s' h1
    · simp [judgesNodup]
  · intro mid s' hs'
    simp only [markSubmissionsExported, List.mem_map] at hs'
    rcases hs' with ⟨s1, hs1, rfl⟩
    by_cases h : s1.missionId = mid
    · simpa [judgesNodup, h] using hinv s1 hs1
    · simpa [judgesNodup, h] using hinv s1 hs1
  · intro mid s' hs'
    exact hinv s' hs'
  · intro mid now s' hs'
    exact hinv s' hs'
  · intro t ttl d now s' hs'
    cases hfind : store.missions.find? (fun m => m.threadId = t) with
    | some m => simp only [registerMission, hfind] at hs'; exact hinv s' hs'
    | none => simp only [registerMission, hfind] at hs'; exact hinv s' hs'
  · intro mid d s' hs'
    cases hfind : store.missions.find? (fun m => m.id = mid) with
    | some m =>
        by_cases hst : m.status = Status.active
        · simp only [updateMissionDeadline, hfind, if_pos hst] at hs'
          exact hinv s' hs'
        · simp only [updateMissionDeadline, hfind, if_neg hst] at hs'
          exact hinv s' hs'
    | none =>
        simp only [updateMissionDeadline, hfind] at hs'
        exact hinv s' hs'

/-- Witness for C4: two votes of judge `"judge-1"` (scores 4 then 2) on
`sampleSubmission` in a one-submission store. -/
theorem recordVote_upsert_witness :
    voteInvariant ⟨[], [sampleSubmission]⟩ ∧
      ((Store.mk [] [sampleSubmission]).submissions.find?
        (fun s => s.id = "sub-1")).isSome ∧
      (∃ s', (recordVote ⟨[], [sampleSubmission]⟩ "sub-1" "judge-1" 4 11).submissions.find?
          (fun s => s.id = "sub-1") = some s' ∧
        s'.votes.filter (fun w => w.judgeId = "judge-1") = [⟨"judge-1", 4, 11⟩]) ∧
      (∃ s', (recordVote (recordVote ⟨[], [sampleSubmission]⟩ "sub-1" "judge-1" 4 11)
            "sub-1" "judge-1" 2 12).submissions.find? (fun s => s.id = "sub-1") = some s' ∧
        s'.votes.filter (fun w => w.judgeId = "judge-1") = [⟨"judge-1", 2, 12⟩]) := by
  have hinv : voteInvariant ⟨[], [sampleSubmission]⟩ := by
    intro s hs
    simp only [List.mem_singleton] at hs
    subst hs
    simp [judgesNodup, sampleSubmission]
  have hpres : ((Store.mk [] [sampleSubmission]).submissions.find?
      (fun s => s.id = "sub-1")).isSome := by decide
  obtain ⟨h1, h2, _⟩ := recordVote_upsert ⟨[], [sampleSubmission]⟩ "sub-1" "judge-1"
    4 2 11 12 hinv hpres
  exact ⟨hinv, hpres, h1, h2⟩

/-! ## C7 — average-score and vote-count rendering -/

/-- C7: in both sheet-row computations — the cells rewritten by
`updateSubmissionVotes` (`voteCellValues`) and the batch rows of
`exportMissionToSheets` (`exportRowCells`) — the `Vote Count` cell is the
number of votes and the `Average Score` cell is the shared
`avgScoreString` mean; on the vote multiset `[5,3,4]` that mean renders as
`"4.00"` (two decimal places) and with no votes it renders as `"N/A"`. -/
theorem averageScore_and_voteCount_rendering :
    (∀ (jArr : List String) (s : Submission),
        getCell (exportHeaders jArr) (exportRowCells jArr s) "Vote Count"
            = toString s.votes.length ∧
          getCell (exportHeaders jArr) (exportRowCells jArr s) "Average Score"
            = avgScoreString (s.votes.map Vote.score)) ∧
      (∀ votes : List JudgeScore,
        (voteCellValues votes).1 = toString votes.length ∧
          (voteCellValues votes).2.1 = avgScoreString (votes.map JudgeScore.score)) ∧
      avgScoreString [5, 3, 4] = "4.00" ∧
      avgScoreString [] = "N/A" := by
  refine ⟨?_, ?_, ?_, ?_⟩
  · intro jArr s
    constructor
    · simp [getCell, exportHeaders, exportRowCells, List.indexOf?, List.findIdx?_cons]
    · simp [getCell, exportHeaders, exportRowCells, List.indexOf?, List.findIdx?_cons]
  · intro votes
    exact ⟨rfl, rfl⟩
  · decide
  · rfl

/-! ## C9 — schema migration -/

theorem getSheet_setSheet (db : SheetDb) (title : String) (sh : Sheet) :
    getSheet (setSheet db title sh) title = some sh := by
  induction db with
  | nil => simp [getSheet, setSheet]
  | cons p rest ih =>
      by_cases h : p.1 = title
      · simp [getSheet, setSheet, h]
      · simp only [setSheet, if_neg h]
        simpa [getSheet, List.find?_cons, h] using ih

/-- C9: on a pre-existing sheet whose header lacks `Source`, the migration
of `ensureMissionSheet` (with every remote call succeeding) rewrites the
sheet to header `migrateHeaders old` — the old header with `"Source"`
inserted immediately after the first column — and rows
`migrateRowData ∘ rowValues old`; the inserted cell is `"discord"`, and
old column `j` (header and every row cell) reappears unchanged at
position `newPos j` of the migrated sheet, so no cell value is lost or
moved under a different header. -/
theorem ensureMissionSheet_migrates_losslessly (db : SheetDb) (mission : Mission)
    (old : List String) (rs : List (List String))
    (hsheet : getSheet db (sanitizeTitle mission.title) = some ⟨old, rs⟩)
    (hnosrc : "Source" ∉ old) (hne : old ≠ []) :
    (∃ db', ensureMissionSheet allOkEnv db mission
        = Except.ok (db', sanitizeTitle mission.title) ∧
      getSheet db' (sanitizeTitle mission.title)
        = some ⟨migrateHeaders old,
            (rs.map (rowValues old)).map migrateRowData⟩) ∧
      migrateHeaders old = List.insertIdx 1 "Source" old ∧
      (migrateHeaders old).getD 1 "" = "Source" ∧
      (∀ j, (migrateHeaders old).getD (newPos j) "" = old.getD j "") ∧
      (∀ d : List String, (migrateRowData d).getD 1 "" = "discord" ∧
        ∀ j, (migrateRowData d).getD (newPos j) "" = d.getD j "") := by
  refine ⟨?_, ?_, rfl, ?_, ?_⟩
  · refine ⟨setSheet (setSheet (setSheet db (sanitizeTitle mission.title) ⟨[], []⟩)
        (sanitizeTitle mission.title) ⟨migrateHeaders old, []⟩)
        (sanitizeTitle mission.title)
        ⟨migrateHeaders old, (rs.map (rowValues old)).map migrateRowData⟩,
      ?_, getSheet_setSheet _ _ _⟩
    simp [ensureMissionSheet, allOkEnv, hsheet, hnosrc]
  · rcases old with _ | ⟨x, t⟩
    · exact absurd rfl hne
    · simp [migrateHeaders, List.insertIdx]
  · intro j
    rcases old with _ | ⟨x, t⟩
    · cases j with
      | zero => rfl
      | succ k => cases k <;> rfl
    · cases j with
      | zero => rfl
      | succ k => rfl
  · intro d
    refine ⟨rfl, ?_⟩
    intro j
    rcases d with _ | ⟨x, t⟩
    · cases j with
      | zero => rfl
      | succ k => cases k <;> rfl
    · cases j with
      | zero => rfl
      | succ k => rfl

/-- Witness for C9: a two-column sheet `["Submission ID", "User ID"]` with
one data row is migrated to `["Submission ID", "Source", "User ID"]` with
the `discord` cell inserted and both original cells preserved. -/
theorem ensureMissionSheet_migrates_losslessly_witness :
    (getSheet [("Mission Three", Sheet.mk ["Submission ID", "User ID"] [["s1", "u1"]])]
        (sanitizeTitle activeMission.title)
      = some ⟨["Submission ID", "User ID"], [["s1", "u1"]]⟩) ∧
      "Source" ∉ ["Submission ID", "User ID"] ∧
      (∃ db', ensureMissionSheet allOkEnv
          [("Mission Three", Sheet.mk ["Submission ID", "User ID"] [["s1", "u1"]])] activeMission
          = Except.ok (db', sanitizeTitle activeMission.title) ∧
        getSheet db' (sanitizeTitle activeMission.title)
          = some ⟨migrateHeaders ["Submission ID", "User ID"],
              ([["s1", "u1"]].map (rowValues ["Submission ID", "User ID"])).map migrateRowData⟩) := by
  refine ⟨rfl, by decide, ?_⟩
  exact (ensureMissionSheet_migrates_losslessly
    [("Mission Three", Sheet.mk ["Submission ID", "User ID"] [["s1", "u1"]])]
    activeMission ["Submission ID", "User ID"] [["s1", "u1"]] rfl (by decide)
    (by simp)).1

/-! ## C3 — batch export semantics -/

theorem markSubmissionsExported_sets (st : Store) (mid : String) :
    ∀ s ∈ (markSubmissionsExported st mid).submissions,
      s.missionId = mid → s.exported = true := by
  intro s hs hmid
  simp only [markSubmissionsExported, List.mem_map] at hs
  rcases hs with ⟨s0, hs0, rfl⟩
  by_cases h : s0.missionId = mid
  · simp [h]
  · rw [if_neg h] at hmid ⊢
    exact absurd hmid h

theorem getMissionById_markMissionExported (st : Store) (mid : String) (now : Nat) :
    getMissionById (markMissionExported st mid now) mid
      = (getMissionById st mid).map
          (fun m => { m with status := Status.exported, exportedAt := some now }) := by
  unfold getMissionById markMissionExported
  exact find?_updateFirstMission
    (fun m => { m with status := Status.exported, exportedAt := some now }) mid
    (fun m => rfl) st.missions

/-- C3: if a batch export reports `success: true` the mission's status is
`exported` and every submission of the mission carries `exported = true`;
a mission with zero submissions (and a reachable spreadsheet) exports
successfully with `rowCount = 0` and no sheet mutation; and a failed
export leaves the store — in particular the mission's status — entirely
unchanged. -/
theorem exportMissionToSheets_spec (env : RemoteEnv) (store : Store) (db : SheetDb)
    (mission : Mission) (now : Nat)
    (hpres : (store.missions.find? (fun m => m.id = mission.id)).isSome) :
    ((exportMissionToSheets env store db mission now).1.success = true →
        (∃ m', getMissionById (exportMissionToSheets env store db mission now).2.1 mission.id
            = some m' ∧ m'.status = Status.exported) ∧
        ∀ s ∈ (exportMissionToSheets env store db mission now).2.1.submissions,
          s.missionId = mission.id → s.exported = true) ∧
      (getSubmissionsByMission store mission.id = [] → env.getSpreadsheetOk = true →
        (exportMissionToSheets env store db mission now).1 = ⟨true, 0⟩ ∧
          (exportMissionToSheets env store db mission now).2.2 = db) ∧
      ((exportMissionToSheets env store db mission now).1.success = false →
        (exportMissionToSheets env store db mission now).2.1 = store) := by
  rcases Option.isSome_iff_exists.mp hpres with ⟨m0, hm0⟩
  have hexp : ∃ m', getMissionById (markMissionExported store mission.id now) mission.id
      = some m' ∧ m'.status = Status.exported := by
    refine ⟨{ m0 with status := Status.exported, exportedAt := some now }, ?_, rfl⟩
    rw [getMissionById_markMissionExported]
    have : getMissionById store mission.id = some m0 := hm0
    rw [this]
    rfl
  cases hg : env.getSpreadsheetOk with
  | false =>
      have hres : exportMissionToSheets env store db mission now = (⟨false, 0⟩, store, db) := by
        simp [exportMissionToSheets, hg]
      rw [hres]
      refine ⟨fun h => ?_, fun _ hg2 => ?_, fun _ => rfl⟩
      · simp at h
      · cases hg2
  | true =>
      cases hsub : getSubmissionsByMission store mission.id with
      | nil =>
          have hres : exportMissionToSheets env store db mission now
              = (⟨true, 0⟩, markMissionExported store mission.id now, db) := by
            simp [exportMissionToSheets, hg, hsub]
          rw [hres]
          refine ⟨fun _ => ⟨hexp, ?_⟩, fun _ _ => ⟨rfl, rfl⟩, fun h => ?_⟩
          · intro s hs hmid
            rw [submissions_markMissionExported] at hs
            have := List.filter_eq_nil_iff.mp hsub s hs
            simp only [decide_eq_true_eq] at this
            exact absurd hmid this
          · simp at h
      | cons s1 rest =>
          have hfail : ∀ dbX : SheetDb,
              ((⟨false, 0⟩, store, dbX) :
                  ExportResult × Store × SheetDb).1.success = true →
                ((∃ m', getMissionById ((⟨false, 0⟩, store, dbX) :
                    ExportResult × Store × SheetDb).2.1 mission.id
                      = some m' ∧ m'.status = Status.exported) ∧
                  ∀ s ∈ ((⟨false, 0⟩, store, dbX) :
                      ExportResult × Store × SheetDb).2.1.submissions,
                    s.missionId = mission.id → s.exported = true) := by
            intro dbX h
            simp at h
          have hzero : ∀ (r : ExportResult × Store × SheetDb),
              s1 :: rest = ([] : List Submission) →
                r.1 = ⟨true, 0⟩ ∧ r.2.2 = db := by
            intro r h0
            cases h0
          have hsucc : ∀ dbX : SheetDb,
              let store2 := markSubmissionsExported
                (markMissionExported store mission.id now) mission.id
              (∃ m', getMissionById store2 mission.id = some m'
                  ∧ m'.status = Status.exported) ∧
                ∀ s ∈ store2.submissions, s.missionId = mission.id → s.exported = true := by
            intro dbX
            refine ⟨?_, markSubmissionsExported_sets _ _⟩
            rcases hexp with ⟨m', hm', hst⟩
            exact ⟨m', hm', hst⟩
          cases hsheet : getSheet db (sanitizeTitle mission.title) with
          | none =>
              cases ha : env.addSheetOk with
              | false =>
                  have hres : exportMissionToSheets env store db mission now
                      = (⟨false, 0⟩, store, db) := by
                    simp [exportMissionToSheets, hg, hsub, hsheet, ha]
                  rw [hres]
                  exact ⟨hfail db, fun h0 _ => hzero _ h0, fun _ => rfl⟩
              | true =>
                  cases hh : env.setHeaderOk with
                  | false =>
                      have hres : exportMissionToSheets env store db mission now
                          = (⟨false, 0⟩, store,
                              setSheet db (sanitizeTitle mission.title) ⟨[], []⟩) := by
                        simp [exportMissionToSheets, hg, hsub, hsheet, ha, hh]
                      rw [hres]
                      exact ⟨hfail _, fun h0 _ => hzero _ h0, fun _ => rfl⟩
                  | true =>
                      cases hr : env.addRowOk with
                      | false =>
                          have hres : exportMissionToSheets env store db mission now
                              = (⟨false, 0⟩, store,
                                  setSheet (setSheet db (sanitizeTitle mission.title) ⟨[], []⟩)
                                    (sanitizeTitle mission.title)
                                    ⟨exportHeaders (judgeIdArrayOf (getSubmissionsByMission store mission.id)), []⟩) := by
                            simp [exportMissionToSheets, hg, hsub, hsheet, ha, hh, hr]
                          rw [hres]
                          exact ⟨hfail _, fun h0 _ => hzero _ h0, fun _ => rfl⟩
                      | true =>
                          have hres : (exportMissionToSheets env store db mission now).1.success = true
                              ∧ (exportMissionToSheets env store db mission now).2.1
                                = markSubmissionsExported
                                    (markMissionExported store mission.id now) mission.id := by
                            constructor <;>
                              simp [exportMissionToSheets, hg, hsub, hsheet, ha, hh, hr]
                          refine ⟨fun _ => ?_, fun h0 _ => hzero _ h0, fun h => ?_⟩
                          · rw [hres.2]
                            exact hsucc db
                          · rw [hres.1] at h
                            cases h
          | some sh =>
              cases hc : env.clearOk with
              | false =>
                  have hres : exportMissionToSheets env store db mission now
                      = (⟨false, 0⟩, store, db) := by
                    simp [exportMissionToSheets, hg, hsub, hsheet, hc]
                  rw [hres]
                  exact ⟨hfail db, fun h0 _ => hzero _ h0, fun _ => rfl⟩
              | true =>
                  cases hh : env.setHeaderOk with
                  | false =>
                      have hres : exportMissionToSheets env store db mission now
                          = (⟨false, 0⟩, store,
                              setSheet db (sanitizeTitle mission.title) ⟨[], []⟩) := by
                        simp [exportMissionToSheets, hg, hsub, hsheet, hc, hh]
                      rw [hres]
                      exact ⟨hfail _, fun h0 _ => hzero _ h0, fun _ => rfl⟩
                  | true =>
                      cases hr : env.addRowOk with
                      | false =>
                          have hres : exportMissionToSheets env store db mission now
                              = (⟨false, 0⟩, store,
                                  setSheet (setSheet db (sanitizeTitle mission.title) ⟨[], []⟩)
                                    (sanitizeTitle mission.title)
                                    ⟨exportHeaders (judgeIdArrayOf (getSubmissionsByMission store mission.id)), []⟩) := by
                            simp [exportMissionToSheets, hg, hsub, hsheet, hc, hh, hr]
                          rw [hres]
                          exact ⟨hfail _, fun h0 _ => hzero _ h0, fun _ => rfl⟩
                      | true =>
                          have hres : (exportMissionToSheets env store db mission now).1.success = true
                              ∧ (exportMissionToSheets env store db mission now).2.1
                                = markSubmissionsExported
                                    (markMissionExported store mission.id now) mission.id := by
                            constructor <;>
                              simp [exportMissionToSheets, hg, hsub, hsheet, hc, hh, hr]
                          refine ⟨fun _ => ?_, fun h0 _ => hzero _ h0, fun h => ?_⟩
                          · rw [hres.2]
                            exact hsucc db
                          · rw [hres.1] at h
                            cases h

/-- Witness for C3: exporting `activeMission` (one submission, no votes)
from a one-mission store over an empty spreadsheet with every remote call
succeeding. -/
theorem exportMissionToSheets_spec_witness :
    ((Store.mk [activeMission] [sampleSubmission]).missions.find?
        (fun m => m.id = activeMission.id)).isSome ∧
      ((exportMissionToSheets allOkEnv ⟨[activeMission], [sampleSubmission]⟩ [] activeMission 20).1.success = true →
        (∃ m', getMissionById
            (exportMissionToSheets allOkEnv ⟨[activeMission], [sampleSubmission]⟩ [] activeMission 20).2.1
            activeMission.id = some m' ∧ m'.status = Status.exported) ∧
        ∀ s ∈ (exportMissionToSheets allOkEnv ⟨[activeMission], [sampleSubmission]⟩ [] activeMission 20).2.1.submissions,
          s.missionId = activeMission.id → s.exported = true) :=
  ⟨by decide,
   (exportMissionToSheets_spec allOkEnv ⟨[activeMission], [sampleSubmission]⟩ []
     activeMission 20 (by decide)).1⟩

end MissionMonitor
